import Mathlib

/-!
# Verification of `settings-rs` (`src/lib.rs`)

A shallow embedding of the `settings` crate: a `Settings<T>` handle coupling a
file-system path with an in-memory value, with `load` (three-candidate path
resolution), `load_from`, `save` and `save_to`.

The file system, environment and platform directory resolver are modelled as
explicit state; calls that mutate the file system return the new file system.
Methods taking `&self` in Rust return the (necessarily unchanged) handle so the
frame property is visible in the embedding.

The RON serializer/deserializer (`ron` crate) and the `directories` crate are
external collaborators of the crate (the spec excludes their internals), so
serialization is a `Codec` parameter.  A concrete codec for the `Config` struct
of the crate's doc-test (`foo: String, bar: u32`) is built below, faithful to
the pretty format with struct names that the doc-test asserts
(`Config(\n    foo: "Hello World",\n    bar: 42,\n)`), and proved to round-trip.
-/

namespace SettingsRs

/-- A file-system path, modelled as its textual representation
(Rust `PathBuf`). -/
abbrev FsPath := String

/-- Causes of I/O failures relevant to this crate: `File::open` on a missing
file or `File::create` with a missing parent directory give `NotFound`;
an unreadable existing file gives `PermissionDenied` (`std::io::ErrorKind`). -/
inductive IoError where
  | notFound
  | permissionDenied
  deriving DecidableEq, Repr

/-- State of a path in the modelled file system: a readable file with given
contents, or an entry that exists (so `Path::exists` is true) but cannot be
opened for reading. -/
inductive FileEntry where
  | file (contents : String)
  | denied
  deriving DecidableEq, Repr

/-- The file system: an association list from paths to entries (first match
wins), plus the set of paths at which `File::create` succeeds (i.e. whose
parent directory exists and is writable). -/
structure Fs where
  files : List (FsPath × FileEntry)
  creatable : List FsPath
  deriving DecidableEq, Repr

/-- Look up the entry at a path. -/
def Fs.lookup (fs : Fs) (p : FsPath) : Option FileEntry :=
  (fs.files.find? (fun e => e.1 == p)).map (·.2)

/-- Rust `Path::exists`: true iff the path refers to an existing entry
(readability is not checked). -/
def Fs.existsB (fs : Fs) (p : FsPath) : Bool :=
  (fs.lookup p).isSome

/-- Rust `File::open` for reading: the contents on success, an
`std::io::Error` cause on failure. -/
def Fs.openFile (fs : Fs) (p : FsPath) : Except IoError String :=
  match fs.lookup p with
  | none => .error .notFound
  | some .denied => .error .permissionDenied
  | some (.file s) => .ok s

/-- Whether `File::create` succeeds at this path. -/
def Fs.createOk (fs : Fs) (p : FsPath) : Bool :=
  fs.creatable.contains p

/-- Create/truncate the file at `p` and write `s` as its full contents. -/
def Fs.write (fs : Fs) (p : FsPath) (s : String) : Fs :=
  { fs with files := (p, .file s) :: fs.files }

/-- The crate's error enum (`Error` in `src/lib.rs`): `Open` carries the
underlying I/O cause and the path attempted; `Deserialize` and `Serialize`
carry the underlying diagnostic (modelled as its message). -/
inductive Error where
  | Open (source : IoError) (path : FsPath)
  | Deserialize (source : String)
  | Serialize (source : String)
  | NotFound
  deriving DecidableEq, Repr

/-- The serde/RON boundary: `encode` models `ron::ser::to_writer_pretty` with
`PrettyConfig::default().struct_names(true)` on a `T: Serialize`, and `decode`
models `ron::de::from_reader` for `T: DeserializeOwned`. -/
structure Codec (T : Type) where
  encode : T → Except String String
  decode : String → Except String T

/-- The `Settings<T>` struct: the last-used path and the wrapped value.
`Deref`/`DerefMut` expose `inner`; `path` is private. -/
structure Settings (T : Type) where
  path : FsPath
  inner : T
  deriving DecidableEq, Repr

/-- The process environment as the crate observes it: `env::var` results,
`env::current_dir().ok()`, and
`directories::ProjectDirs::from(q, o, a).map(|d| d.config_dir())`
(`none` models a failed lookup / undeterminable directory). -/
structure Env where
  envVar : String → Option String
  currentDir : Option FsPath
  projectConfigDir : String → String → String → Option FsPath

/-- Rust `str::to_uppercase` on an application name (its per-character ASCII
action), used to build the env-var name. -/
def toUpperStr (s : String) : String :=
  ⟨s.data.map Char.toUpper⟩

/-- `PathBuf::join` with a file name. -/
def joinPath (dir name : FsPath) : FsPath :=
  dir ++ "/" ++ name

/-- `const FILE_NAME: &str = "settings.ron"` in `Settings::load`. -/
def fileName : String := "settings.ron"

/-- The `paths` array built by `Settings::load`: env-var override, cwd
`settings.ron`, OS config-dir `settings.ron`, in this order; unavailable
candidates are `none`. -/
def candidatePaths (e : Env) (qualifier organization application : String) :
    List (Option FsPath) :=
  [ e.envVar (toUpperStr application ++ "_CONFIG_PATH"),
    e.currentDir.map (fun dir => joinPath dir fileName),
    (e.projectConfigDir qualifier organization application).map
      (fun dir => joinPath dir fileName) ]

variable {T : Type}

/-- `Settings::load_from`: open the file (failure ⇒ `Open`), deserialize
(failure ⇒ `Deserialize`), and construct the handle with the given path.
Opening for reading does not change the file system, which is returned
unchanged. -/
def Settings.load_from (c : Codec T) (fs : Fs) (path : FsPath) :
    Except Error (Settings T) × Fs :=
  match fs.openFile path with
  | .error source => (.error (.Open source path), fs)
  | .ok contents =>
    match c.decode contents with
    | .error e => (.error (.Deserialize e), fs)
    | .ok inner => (.ok { path := path, inner := inner }, fs)

/-- `Settings::load`: flatten the candidate array, find the first candidate
whose file exists, and `load_from` it; otherwise fail with `NotFound`. -/
def Settings.load (c : Codec T) (e : Env) (fs : Fs)
    (qualifier organization application : String) :
    Except Error (Settings T) × Fs :=
  match ((candidatePaths e qualifier organization application).filterMap id).find?
      (fun path => fs.existsB path) with
  | some path => Settings.load_from c fs path
  | none => (.error .NotFound, fs)

/-- `Settings::save_to(&self, path)`: `File::create` (failure ⇒ `Open`, file
system untouched), then serialize `self.deref()` — the inner value only — into
the file.  `File::create` truncates first, so a serialization failure leaves an
empty file.  The receiver is `&self`: the returned handle is the unchanged
`self`. -/
def Settings.save_to (c : Codec T) (self : Settings T) (fs : Fs) (path : FsPath) :
    Except Error Unit × Settings T × Fs :=
  if fs.createOk path then
    match c.encode self.inner with
    | .error e => (.error (.Serialize e), self, fs.write path "")
    | .ok contents => (.ok (), self, fs.write path contents)
  else
    (.error (.Open .notFound path), self, fs)

/-- `Settings::save(&self)`: `self.save_to(&self.path)`. -/
def Settings.save (c : Codec T) (self : Settings T) (fs : Fs) :
    Except Error Unit × Settings T × Fs :=
  Settings.save_to c self fs self.path

/-! ## A concrete caller type and its RON codec

The doc-test's `Config { foo: String, bar: u32 }`, with the RON pretty
serializer (struct names on) and a deserializer for exactly that shape.
Modelled from the spec: the `ron` crate is an external collaborator; the
pretty format is pinned by the crate's doc-test assertion. -/

/-- The doc-test's caller-supplied configuration struct. -/
structure Config where
  foo : String
  bar : Nat
  deriving DecidableEq, Repr

/-- RON string escaping: backslash and double quote are escaped with a
backslash; other characters are emitted verbatim. -/
def ronEscapeChar (c : Char) : List Char :=
  if c = '"' ∨ c = '\\' then ['\\', c] else [c]

/-- Escape a string body, character by character. -/
def escList (cs : List Char) : List Char :=
  cs.flatMap ronEscapeChar

/-- RON string escaping at the `String` level. -/
def ronEscape (s : String) : String :=
  ⟨escList s.data⟩

/-- Decimal digits of `n`, most significant first, by repeated division;
`fuel` bounds the recursion (any `fuel ≥ n` is enough). -/
def ronNatAux : Nat → Nat → List Char
  | 0, _ => []
  | _ + 1, 0 => []
  | fuel + 1, n + 1 =>
    ronNatAux fuel ((n + 1) / 10) ++ [Nat.digitChar ((n + 1) % 10)]

/-- Decimal representation of `n` as a character list (`"0"` for zero). -/
def ronNatChars (n : Nat) : List Char :=
  if n = 0 then ['0'] else ronNatAux n n

/-- Decimal representation of a `u32` value, as RON prints integers. -/
def ronNat (n : Nat) : String :=
  ⟨ronNatChars n⟩

/-- The RON pretty serializer for `Config` with
`PrettyConfig::default().struct_names(true)`: explicit struct name, fields in
declaration order, four-space indentation, trailing commas. -/
def ronEncodeConfig (v : Config) : String :=
  "Config(\n    foo: \"" ++ ronEscape v.foo ++ "\",\n    bar: "
    ++ ronNat v.bar ++ ",\n)"

/-- Consume a literal prefix, returning the remainder (or `none` on
mismatch). -/
def expectPrefix : List Char → List Char → Option (List Char)
  | [], s => some s
  | _ :: _, [] => none
  | p :: ps, c :: cs => if c = p then expectPrefix ps cs else none

/-- Scan an escaped RON string body up to and including the closing quote,
returning the unescaped body and the remainder; `none` if the input ends
before an unescaped closing quote. -/
def scanStr : List Char → Option (List Char × List Char)
  | [] => none
  | c :: rest =>
    if c = '"' then some ([], rest)
    else if c = '\\' then
      match rest with
      | [] => none
      | c2 :: rest2 => (scanStr rest2).map (fun p => (c2 :: p.1, p.2))
    else (scanStr rest).map (fun p => (c :: p.1, p.2))

/-- Take the longest digit prefix. -/
def takeDigits : List Char → List Char × List Char
  | [] => ([], [])
  | c :: cs =>
    if c.isDigit then
      let p := takeDigits cs
      (c :: p.1, p.2)
    else ([], c :: cs)

/-- Numeric value of a big-endian digit string. -/
def digitsVal (cs : List Char) : Nat :=
  cs.foldl (fun a c => 10 * a + (c.toNat - 48)) 0

/-- The RON deserializer for `Config`: parses exactly the pretty document
shape the serializer produces, rejecting anything else with a diagnostic. -/
def ronDecodeConfigList (s : List Char) : Except String Config :=
  match expectPrefix "Config(\n    foo: \"".data s with
  | none => .error "expected struct header"
  | some r1 =>
    match scanStr r1 with
    | none => .error "unterminated string"
    | some (foo, r2) =>
      match expectPrefix ",\n    bar: ".data r2 with
      | none => .error "expected field bar"
      | some r3 =>
        match takeDigits r3 with
        | (ds, r4) =>
          if ds = [] then .error "expected integer"
          else
            match expectPrefix ",\n)".data r4 with
            | none => .error "expected struct end"
            | some [] => .ok { foo := ⟨foo⟩, bar := digitsVal ds }
            | some (_ :: _) => .error "trailing characters"

/-- The RON deserializer for `Config` at the `String` level. -/
def ronDecodeConfig (s : String) : Except String Config :=
  ronDecodeConfigList s.data

/-- The serde/RON codec for `Config` (serialization of a plain struct of a
string and an integer never fails). -/
def configCodec : Codec Config where
  encode v := .ok (ronEncodeConfig v)
  decode := ronDecodeConfig

/-! ## Round-trip lemmas for the `Config` codec -/

theorem expectPrefix_append (pre rest : List Char) :
    expectPrefix pre (pre ++ rest) = some rest := by
  induction pre with
  | nil => rfl
  | cons p ps ih => simp [expectPrefix, ih]

theorem escList_cons (c : Char) (cs : List Char) :
    escList (c :: cs) = ronEscapeChar c ++ escList cs := rfl

theorem scanStr_escList (cs rest : List Char) :
    scanStr (escList cs ++ '"' :: rest) = some (cs, rest) := by
  induction cs with
  | nil =>
    rw [show escList [] ++ '"' :: rest = '"' :: rest from rfl, scanStr.eq_def]
    simp
  | cons c cs ih =>
    rcases Decidable.em (c = '"' ∨ c = '\\') with h | h
    · have hsh : escList (c :: cs) ++ '"' :: rest =
          '\\' :: c :: (escList cs ++ '"' :: rest) := by
        simp [escList_cons, ronEscapeChar, h]
      rw [hsh, scanStr.eq_def]
      simp [ih]
    · have hne := not_or.mp h
      have hsh : escList (c :: cs) ++ '"' :: rest =
          c :: (escList cs ++ '"' :: rest) := by
        simp [escList_cons, ronEscapeChar, h]
      rw [hsh, scanStr.eq_def]
      simp [hne.1, hne.2, ih]

theorem digitChar_toNat {d : Nat} (h : d < 10) :
    (Nat.digitChar d).toNat = 48 + d := by
  interval_cases d <;> rfl

theorem digitChar_isDigit {d : Nat} (h : d < 10) :
    (Nat.digitChar d).isDigit = true := by
  interval_cases d <;> decide

theorem ronNatAux_mem_isDigit (fuel : Nat) :
    ∀ n c, c ∈ ronNatAux fuel n → c.isDigit = true := by
  induction fuel with
  | zero => intro n c h; simp [ronNatAux] at h
  | succ fuel ih =>
    intro n c h
    match n with
    | 0 => simp [ronNatAux] at h
    | m + 1 =>
      rw [ronNatAux] at h
      rcases List.mem_append.mp h with h | h
      · exact ih _ _ h
      · rcases List.mem_singleton.mp h with rfl
        exact digitChar_isDigit (Nat.mod_lt _ (by norm_num))

theorem digitsVal_append (xs : List Char) (c : Char) :
    digitsVal (xs ++ [c]) = 10 * digitsVal xs + (c.toNat - 48) := by
  simp [digitsVal, List.foldl_append]

theorem ronNatAux_val (fuel : Nat) :
    ∀ n, n ≤ fuel → digitsVal (ronNatAux fuel n) = n := by
  induction fuel with
  | zero =>
    intro n h
    interval_cases n
    simp [ronNatAux, digitsVal]
  | succ fuel ih =>
    intro n h
    match n with
    | 0 => simp [ronNatAux, digitsVal]
    | m + 1 =>
      have hlt : (m + 1) / 10 < m + 1 := Nat.div_lt_self (Nat.succ_pos m) (by norm_num)
      have hdiv : (m + 1) / 10 ≤ fuel := by omega
      have hmod : (m + 1) % 10 < 10 := Nat.mod_lt _ (by norm_num)
      rw [ronNatAux, digitsVal_append, ih _ hdiv, digitChar_toNat hmod]
      omega

theorem ronNatChars_ne_nil (n : Nat) : ronNatChars n ≠ [] := by
  match n with
  | 0 => simp [ronNatChars]
  | m + 1 => simp [ronNatChars, ronNatAux]

theorem ronNatChars_isDigit (n : Nat) (c : Char) (h : c ∈ ronNatChars n) :
    c.isDigit = true := by
  match n with
  | 0 =>
    rw [ronNatChars] at h
    rcases List.mem_singleton.mp (by simpa using h) with rfl
    decide
  | m + 1 => exact ronNatAux_mem_isDigit _ _ _ (by simpa [ronNatChars] using h)

theorem digitsVal_ronNatChars (n : Nat) : digitsVal (ronNatChars n) = n := by
  match n with
  | 0 => simp [ronNatChars, digitsVal]
  | m + 1 => simpa [ronNatChars] using ronNatAux_val (m + 1) (m + 1) le_rfl

theorem takeDigits_append (ds rest : List Char)
    (hds : ∀ c ∈ ds, c.isDigit = true)
    (hrest : ∀ c, rest.head? = some c → c.isDigit = false) :
    takeDigits (ds ++ rest) = (ds, rest) := by
  induction ds with
  | nil =>
    match rest with
    | [] => rfl
    | c :: cs => simp [takeDigits, hrest c rfl]
  | cons c cs ih =>
    simp [takeDigits, hds c (by simp), ih (fun x hx => hds x (by simp [hx]))]

theorem ronEncodeConfig_data (v : Config) :
    (ronEncodeConfig v).data =
      "Config(\n    foo: \"".data ++ escList v.foo.data ++ "\",\n    bar: ".data
        ++ ronNatChars v.bar ++ ",\n)".data := by
  simp [ronEncodeConfig, ronEscape, ronNat, String.data_append]

theorem ronCodec_round_trip (v : Config) :
    ronDecodeConfig (ronEncodeConfig v) = .ok v := by
  have h1 : (ronEncodeConfig v).data =
      "Config(\n    foo: \"".data ++ (escList v.foo.data ++ ('"' ::
        (",\n    bar: ".data ++ (ronNatChars v.bar ++ ",\n)".data)))) := by
    rw [ronEncodeConfig_data,
      show "\",\n    bar: ".data = '"' :: ",\n    bar: ".data from rfl]
    simp [List.append_assoc]
  have hd : takeDigits (ronNatChars v.bar ++ ",\n)".data) =
      (ronNatChars v.bar, ",\n)".data) := by
    refine takeDigits_append _ _ (fun c hc => ronNatChars_isDigit _ c hc) ?_
    intro c hc
    rw [show ((",\n)".data).head? = some ',') from rfl] at hc
    injection hc with h
    subst h
    decide
  have hend : expectPrefix ",\n)".data (",\n)".data) = some [] := by
    simpa using expectPrefix_append ",\n)".data []
  rw [ronDecodeConfig, h1, ronDecodeConfigList]
  simp [expectPrefix, scanStr_escList, hd, hend, digitsVal_ronNatChars,
    ronNatChars_ne_nil]

/-! ## Generic facts about the embedded operations -/

theorem openFile_write (fs : Fs) (p : FsPath) (s : String) :
    (fs.write p s).openFile p = .ok s := by
  simp [Fs.write, Fs.openFile, Fs.lookup, List.find?_cons_of_pos]

/-! ## Concrete instances used by the witnesses -/

/-- A handle whose stored path differs from an explicit save target. -/
def cexSettings : Settings Config :=
  { path := "/a/settings.ron", inner := { foo := "x", bar := 1 } }

/-- A file system in which `/b/settings.ron` can be created. -/
def cexFs : Fs :=
  { files := [], creatable := ["/b/settings.ron"] }

/-- An environment with the env-var override set (for application `bar`),
a current directory, and an OS config directory. -/
def wEnv : Env where
  envVar := fun n => if n = "BAR_CONFIG_PATH" then some "/tmp/override.ron" else none
  currentDir := some "/work"
  projectConfigDir := fun _ _ _ => some "/home/alice/.config/bar"

/-- A file system where both the env-var path and the cwd `settings.ron`
exist. -/
def wFs : Fs where
  files :=
    [ ("/tmp/override.ron", .file "Config(\n    foo: \"x\",\n    bar: 7,\n)"),
      ("/work/settings.ron", .file "Config(\n    foo: \"y\",\n    bar: 8,\n)") ]
  creatable := []

/-- An environment in which only the OS config-dir candidate is available. -/
def wEnvOnlyProj : Env where
  envVar := fun _ => none
  currentDir := none
  projectConfigDir := fun _ _ _ => some "/home/alice/.config/bar"

/-- An environment in which no candidate is available. -/
def wEnvNone : Env where
  envVar := fun _ => none
  currentDir := none
  projectConfigDir := fun _ _ _ => none

/-- A file system holding only the OS config-dir `settings.ron`. -/
def wFsProj : Fs where
  files := [("/home/alice/.config/bar/settings.ron",
    .file "Config(\n    foo: \"z\",\n    bar: 9,\n)")]
  creatable := []

/-- An empty, fully writable-at-one-path file system. -/
def wFsW : Fs where
  files := []
  creatable := ["/app/settings.ron"]

/-- A file system with one well-formed settings file. -/
def wFsGood : Fs where
  files := [("/etc/app/settings.ron", .file "Config(\n    foo: \"x\",\n    bar: 1,\n)")]
  creatable := []

/-- A file system with one malformed settings file. -/
def wFsBad : Fs where
  files := [("/etc/app/settings.ron", .file "garbage")]
  creatable := []

theorem load_from_fs_unchanged (c : Codec T) (fs : Fs) (p : FsPath) :
    (Settings.load_from c fs p).2 = fs := by
  unfold Settings.load_from
  split
  · rfl
  · split <;> rfl

/-! ## Claim theorems -/

/-- C7: `save()` with no explicit path behaves identically to `save_to`
called with the handle's currently stored path — same result, same handle
state, same file written. -/
theorem save_eq_save_to_stored_path (c : Codec T) (h : Settings T) (fs : Fs) :
    Settings.save c h fs = Settings.save_to c h fs h.path := rfl

/-- C3: `save_to(p)` leaves the handle entirely unchanged (the receiver is
`&self`), whether it succeeds or fails; when the parent directory of `p` does
not exist (`File::create` fails), it fails with `Open` and the file system is
also untouched. -/
theorem save_to_leaves_handle_unchanged (c : Codec T) (h : Settings T)
    (fs : Fs) (p : FsPath) :
    (Settings.save_to c h fs p).2.1 = h ∧
    (fs.createOk p = false →
      Settings.save_to c h fs p = (.error (.Open .notFound p), h, fs)) := by
  constructor
  · unfold Settings.save_to
    split
    · split <;> rfl
    · rfl
  · intro hfail
    simp [Settings.save_to, hfail]

/-- C3 witness: at a concrete handle and a target whose parent directory does
not exist, `save_to` fails with `Open` and the handle is unchanged. -/
theorem save_to_leaves_handle_unchanged_witness :
    (Settings.save_to configCodec cexSettings cexFs "/nodir/settings.ron").2.1
        = cexSettings ∧
    Settings.save_to configCodec cexSettings cexFs "/nodir/settings.ron" =
      (.error (.Open .notFound "/nodir/settings.ron"), cexSettings, cexFs) :=
  ⟨(save_to_leaves_handle_unchanged configCodec cexSettings cexFs
      "/nodir/settings.ron").1,
   (save_to_leaves_handle_unchanged configCodec cexSettings cexFs
      "/nodir/settings.ron").2 rfl⟩

/-- C2 counterexample: a successful `save_to` with an explicit target does NOT
update the stored `path`: after saving to `/b/settings.ron` the handle still
stores `/a/settings.ron`, so the stored path does not reflect the most recent
explicit save target. -/
theorem save_to_path_not_updated_cex :
    (Settings.save_to configCodec cexSettings cexFs "/b/settings.ron").1
        = .ok () ∧
    (Settings.save_to configCodec cexSettings cexFs "/b/settings.ron").2.1.path
        ≠ "/b/settings.ron" := by
  exact ⟨rfl, by decide⟩

/-- C2 (amended): the stored `path` is set at construction by
`load`/`load_from` to the loaded path and never changed afterwards: `save_to`
does not update it, and `save()` reads it as its target. -/
theorem path_set_at_construction_only (c : Codec T) (fs : Fs) (p : FsPath) :
    (∀ s fs2, Settings.load_from c fs p = (.ok s, fs2) → s.path = p) ∧
    (∀ h : Settings T, (Settings.save_to c h fs p).2.1.path = h.path) ∧
    (∀ h : Settings T, Settings.save c h fs = Settings.save_to c h fs h.path) := by
  refine ⟨?_, ?_, fun _ => rfl⟩
  · intro s fs2 hldf
    cases hof : fs.openFile p with
    | error io => simp [Settings.load_from, hof] at hldf
    | ok contents =>
      cases hdec : c.decode contents with
      | error e => simp [Settings.load_from, hof, hdec] at hldf
      | ok v =>
        simp [Settings.load_from, hof, hdec] at hldf
        rw [← hldf.1]
  · intro h
    rw [(save_to_leaves_handle_unchanged c h fs p).1]

/-- C2 (amended) witness: loading a concrete well-formed file constructs a
handle whose stored path is the loaded path. -/
theorem path_set_at_construction_only_witness :
    (Settings.load_from configCodec wFsGood "/etc/app/settings.ron" =
        (.ok { path := "/etc/app/settings.ron",
               inner := { foo := "x", bar := 1 } }, wFsGood)) ∧
    ({ path := "/etc/app/settings.ron",
       inner := { foo := "x", bar := 1 } } : Settings Config).path
      = "/etc/app/settings.ron" :=
  ⟨rfl, (path_set_at_construction_only configCodec wFsGood
      "/etc/app/settings.ron").1 _ wFsGood rfl⟩

/-- C6: `load_from` fails with `Open` (carrying the I/O cause and the
attempted path) exactly when the file cannot be opened, fails with
`Deserialize` (no handle constructed) exactly when the contents do not parse,
and on success returns a handle whose path is the given path and whose value
is the parsed instance; the three cases are exhaustive, so there is no
partial-success state. -/
theorem load_from_cases (c : Codec T) (fs : Fs) (p : FsPath) :
    (∀ io, fs.openFile p = .error io →
      Settings.load_from c fs p = (.error (.Open io p), fs)) ∧
    (∀ s e, fs.openFile p = .ok s → c.decode s = .error e →
      Settings.load_from c fs p = (.error (.Deserialize e), fs)) ∧
    (∀ s v, fs.openFile p = .ok s → c.decode s = .ok v →
      Settings.load_from c fs p = (.ok { path := p, inner := v }, fs)) := by
  refine ⟨?_, ?_, ?_⟩
  · intro io hof
    simp [Settings.load_from, hof]
  · intro s e hof hdec
    simp [Settings.load_from, hof, hdec]
  · intro s v hof hdec
    simp [Settings.load_from, hof, hdec]

/-- C6 witness: a malformed file makes `load_from` fail with `Deserialize`,
and a missing file makes it fail with `Open` carrying the cause and path. -/
theorem load_from_cases_witness :
    Settings.load_from configCodec wFsBad "/etc/app/settings.ron" =
      (.error (.Deserialize "expected struct header"), wFsBad) ∧
    Settings.load_from configCodec wFsBad "/missing.ron" =
      (.error (.Open .notFound "/missing.ron"), wFsBad) :=
  ⟨(load_from_cases configCodec wFsBad "/etc/app/settings.ron").2.1
      "garbage" "expected struct header" rfl rfl,
   (load_from_cases configCodec wFsBad "/missing.ron").1 .notFound rfl⟩

/-- C10: the bytes written by `save_to` depend only on the inner value, not on
the stored path: handles with equal inner values produce the same result and
the same file system, and the written contents are exactly the serialization
of the inner value (reached through `deref`), never involving the stored
path. -/
theorem save_to_depends_only_on_inner (c : Codec T) (h1 h2 : Settings T)
    (fs : Fs) (p : FsPath) (hinner : h1.inner = h2.inner) :
    (Settings.save_to c h1 fs p).1 = (Settings.save_to c h2 fs p).1 ∧
    (Settings.save_to c h1 fs p).2.2 = (Settings.save_to c h2 fs p).2.2 ∧
    (∀ s, fs.createOk p = true → c.encode h1.inner = .ok s →
      (Settings.save_to c h1 fs p).2.2.openFile p = .ok s) := by
  refine ⟨?_, ?_, ?_⟩
  · simp only [Settings.save_to, hinner]
    split
    · split <;> rfl
    · rfl
  · simp only [Settings.save_to, hinner]
    split
    · split <;> rfl
    · rfl
  · intro s hc he
    simp [Settings.save_to, hc, he, openFile_write]

/-- C10 witness: two handles with different stored paths but the same inner
value write the same bytes, which are the serialization of the inner value. -/
theorem save_to_depends_only_on_inner_witness :
    ((Settings.save_to configCodec
        { path := "/one.ron", inner := { foo := "x", bar := 1 } }
        wFsW "/app/settings.ron").1 =
      (Settings.save_to configCodec
        { path := "/two.ron", inner := { foo := "x", bar := 1 } }
        wFsW "/app/settings.ron").1) ∧
    ((Settings.save_to configCodec
        { path := "/one.ron", inner := { foo := "x", bar := 1 } }
        wFsW "/app/settings.ron").2.2 =
      (Settings.save_to configCodec
        { path := "/two.ron", inner := { foo := "x", bar := 1 } }
        wFsW "/app/settings.ron").2.2) ∧
    (Settings.save_to configCodec
        { path := "/one.ron", inner := { foo := "x", bar := 1 } }
        wFsW "/app/settings.ron").2.2.openFile "/app/settings.ron" =
      .ok (ronEncodeConfig { foo := "x", bar := 1 }) := by
  have h := save_to_depends_only_on_inner configCodec
    { path := "/one.ron", inner := { foo := "x", bar := 1 } }
    { path := "/two.ron", inner := { foo := "x", bar := 1 } }
    wFsW "/app/settings.ron" rfl
  exact ⟨h.1, h.2.1, h.2.2 _ rfl rfl⟩

/-- C1: `load(qualifier, organization, application)` evaluates exactly three
candidates in strict priority order — env var
`{APPLICATION_UPPERCASED}_CONFIG_PATH`, cwd `settings.ron`, OS config-dir
`settings.ron` — and loads from the first whose file exists; in particular,
when the env-var path exists it is read regardless of the other candidates. -/
theorem load_resolution_priority (c : Codec T) (e : Env) (fs : Fs)
    (q o a : String) :
    (candidatePaths e q o a).length = 3 ∧
    (∀ p, e.envVar (toUpperStr a ++ "_CONFIG_PATH") = some p →
      fs.existsB p = true →
      Settings.load c e fs q o a = Settings.load_from c fs p) ∧
    (∀ d, (∀ p, e.envVar (toUpperStr a ++ "_CONFIG_PATH") = some p →
        fs.existsB p = false) →
      e.currentDir = some d → fs.existsB (joinPath d fileName) = true →
      Settings.load c e fs q o a =
        Settings.load_from c fs (joinPath d fileName)) ∧
    (∀ d, (∀ p, e.envVar (toUpperStr a ++ "_CONFIG_PATH") = some p →
        fs.existsB p = false) →
      (∀ d', e.currentDir = some d' →
        fs.existsB (joinPath d' fileName) = false) →
      e.projectConfigDir q o a = some d →
      fs.existsB (joinPath d fileName) = true →
      Settings.load c e fs q o a =
        Settings.load_from c fs (joinPath d fileName)) := by
  refine ⟨rfl, ?_, ?_, ?_⟩
  · intro p henv hex
    simp [Settings.load, candidatePaths, henv, hex]
  · intro d henvfail hcur hex
    cases henv : e.envVar (toUpperStr a ++ "_CONFIG_PATH") with
    | none => simp [Settings.load, candidatePaths, henv, hcur, hex]
    | some pe =>
      simp [Settings.load, candidatePaths, henv, hcur, hex,
        henvfail pe henv]
  · intro d henvfail hcurfail hproj hex
    cases henv : e.envVar (toUpperStr a ++ "_CONFIG_PATH") with
    | none =>
      cases hcur : e.currentDir with
      | none => simp [Settings.load, candidatePaths, henv, hcur, hproj, hex]
      | some d' =>
        simp [Settings.load, candidatePaths, henv, hcur, hproj, hex,
          hcurfail d' hcur]
    | some pe =>
      cases hcur : e.currentDir with
      | none =>
        simp [Settings.load, candidatePaths, henv, hcur, hproj, hex,
          henvfail pe henv]
      | some d' =>
        simp [Settings.load, candidatePaths, henv, hcur, hproj, hex,
          henvfail pe henv, hcurfail d' hcur]

/-- C1 witness: with the env-var override set and existing and a cwd
`settings.ron` also existing, `load` reads from the env-var path. -/
theorem load_resolution_priority_witness :
    Settings.load configCodec wEnv wFs "com" "Foo" "bar" =
      Settings.load_from configCodec wFs "/tmp/override.ron" :=
  (load_resolution_priority configCodec wEnv wFs "com" "Foo" "bar").2.1
    "/tmp/override.ron" (by decide) (by decide)

/-- C5: when no candidate exists, `load` fails with `NotFound`; resolution is
read-only probing, so the file system is returned unchanged by `load` in every
case (no file is ever created). -/
theorem load_notfound_no_side_effects (c : Codec T) (e : Env) (fs : Fs)
    (q o a : String) :
    (Settings.load c e fs q o a).2 = fs ∧
    ((∀ p ∈ (candidatePaths e q o a).filterMap id, fs.existsB p = false) →
      Settings.load c e fs q o a = (.error .NotFound, fs)) := by
  constructor
  · unfold Settings.load
    split
    · exact load_from_fs_unchanged c fs _
    · rfl
  · intro hall
    have hfind : ((candidatePaths e q o a).filterMap id).find?
        (fun path => fs.existsB path) = none :=
      List.find?_eq_none.mpr (fun x hx => by simp [hall x hx])
    unfold Settings.load
    rw [hfind]

/-- C5 witness: with no candidate available, `load` returns `NotFound` and
the (empty) file system is unchanged. -/
theorem load_notfound_no_side_effects_witness :
    Settings.load configCodec wEnvNone cexFs "com" "Foo" "bar" =
      (.error .NotFound, cexFs) :=
  (load_notfound_no_side_effects configCodec wEnvNone cexFs "com" "Foo"
    "bar").2 (fun p hp => by simp [candidatePaths, wEnvNone] at hp)

/-- C9: resolution failures are not errors: `load` never produces anything
but the typed errors (in particular never `Serialize`); an unset env var,
an undeterminable cwd and an uncomputable config dir merely skip their
candidate (the remaining ones are still tried), and only when nothing is left
does it return `NotFound`. -/
theorem load_only_typed_errors_and_skips (c : Codec T) (e : Env) (fs : Fs)
    (q o a : String) :
    (∀ msg, (Settings.load c e fs q o a).1 ≠ .error (.Serialize msg)) ∧
    (∀ d, e.envVar (toUpperStr a ++ "_CONFIG_PATH") = none →
      e.currentDir = none → e.projectConfigDir q o a = some d →
      fs.existsB (joinPath d fileName) = true →
      Settings.load c e fs q o a =
        Settings.load_from c fs (joinPath d fileName)) ∧
    (e.envVar (toUpperStr a ++ "_CONFIG_PATH") = none → e.currentDir = none →
      e.projectConfigDir q o a = none →
      Settings.load c e fs q o a = (.error .NotFound, fs)) := by
  refine ⟨?_, ?_, ?_⟩
  · intro msg
    unfold Settings.load
    split
    · unfold Settings.load_from
      split
      · simp
      · split <;> simp
    · simp
  · intro d h1 h2 h3 hex
    simp [Settings.load, candidatePaths, h1, h2, h3, hex]
  · intro h1 h2 h3
    simp [Settings.load, candidatePaths, h1, h2, h3]

/-- C9 witness: with the env var unset and the cwd unavailable, the OS
config-dir candidate is still tried and loaded. -/
theorem load_only_typed_errors_and_skips_witness :
    Settings.load configCodec wEnvOnlyProj wFsProj "com" "Foo" "bar" =
      Settings.load_from configCodec wFsProj
        (joinPath "/home/alice/.config/bar" fileName) :=
  (load_only_typed_errors_and_skips configCodec wEnvOnlyProj wFsProj
      "com" "Foo" "bar").2.1 "/home/alice/.config/bar" rfl rfl rfl (by decide)

/-- C4: for a value whose serialization round-trips, `save_to p` then
`load_from p` succeeds and yields a handle whose value is exactly the saved
value (whatever the saving handle's stored path was); likewise a handle
loaded from `p`, mutated to that value and saved with `save()` reloads from
`p` as the mutated value. -/
theorem save_then_load_round_trip (c : Codec T) (v : T) (q p : FsPath)
    (fs : Fs) (s : String) (henc : c.encode v = .ok s)
    (hdec : c.decode s = .ok v) (hcreate : fs.createOk p = true) :
    ((Settings.save_to c { path := q, inner := v } fs p).1 = .ok () ∧
      (Settings.load_from c
          (Settings.save_to c { path := q, inner := v } fs p).2.2 p).1 =
        .ok { path := p, inner := v }) ∧
    ((Settings.save c { path := p, inner := v } fs).1 = .ok () ∧
      (Settings.load_from c
          (Settings.save c { path := p, inner := v } fs).2.2 p).1 =
        .ok { path := p, inner := v }) := by
  have hsave : ∀ q' : FsPath,
      Settings.save_to c { path := q', inner := v } fs p =
        (.ok (), { path := q', inner := v }, fs.write p s) := by
    intro q'
    simp [Settings.save_to, hcreate, henc]
  have hload : (Settings.load_from c (fs.write p s) p).1 =
      .ok { path := p, inner := v } := by
    simp [Settings.load_from, openFile_write, hdec]
  refine ⟨⟨?_, ?_⟩, ⟨?_, ?_⟩⟩
  · rw [hsave q]
  · rw [hsave q]
    exact hload
  · rw [show Settings.save c { path := p, inner := v } fs =
      Settings.save_to c { path := p, inner := v } fs p from rfl, hsave p]
  · rw [show Settings.save c { path := p, inner := v } fs =
      Settings.save_to c { path := p, inner := v } fs p from rfl, hsave p]
    exact hload

/-- C4 witness: the doc-test value round-trips through an actual
`save_to`/`load_from` pair on a concrete file system. -/
theorem save_then_load_round_trip_witness :
    ((Settings.save_to configCodec
        { path := "/old.ron", inner := { foo := "Hello World", bar := 42 } }
        wFsW "/app/settings.ron").1 = .ok () ∧
      (Settings.load_from configCodec
          (Settings.save_to configCodec
            { path := "/old.ron",
              inner := { foo := "Hello World", bar := 42 } }
            wFsW "/app/settings.ron").2.2 "/app/settings.ron").1 =
        .ok { path := "/app/settings.ron",
              inner := { foo := "Hello World", bar := 42 } }) ∧
    ((Settings.save configCodec
        { path := "/app/settings.ron",
          inner := { foo := "Hello World", bar := 42 } } wFsW).1 = .ok () ∧
      (Settings.load_from configCodec
          (Settings.save configCodec
            { path := "/app/settings.ron",
              inner := { foo := "Hello World", bar := 42 } } wFsW).2.2
          "/app/settings.ron").1 =
        .ok { path := "/app/settings.ron",
              inner := { foo := "Hello World", bar := 42 } }) :=
  save_then_load_round_trip configCodec
    { foo := "Hello World", bar := 42 } "/old.ron" "/app/settings.ron"
    wFsW (ronEncodeConfig { foo := "Hello World", bar := 42 }) rfl rfl rfl

/-- C8: `save_to` writes exactly the pretty-printed serialization of the
in-memory value, with the explicit struct-name annotation (`Config(...)`),
fields in declaration order and stable four-space indentation — on the
doc-test value this is precisely the document the doc-test asserts. -/
theorem save_to_writes_pretty_format (hd : Settings Config) (fs : Fs)
    (p : FsPath) (hcreate : fs.createOk p = true) :
    (Settings.save_to configCodec hd fs p).2.2.openFile p =
      .ok (ronEncodeConfig hd.inner) ∧
    ronEncodeConfig { foo := "Hello World", bar := 42 } =
      "Config(\n    foo: \"Hello World\",\n    bar: 42,\n)" ∧
    (∃ rest, ronEncodeConfig hd.inner = "Config(" ++ rest) := by
  refine ⟨?_, by decide, ?_⟩
  · simp [Settings.save_to, hcreate, configCodec, openFile_write]
  · refine ⟨"\n    foo: \"" ++ ronEscape hd.inner.foo ++ "\",\n    bar: "
      ++ ronNat hd.inner.bar ++ ",\n)", String.ext ?_⟩
    simp [ronEncodeConfig, String.data_append, List.append_assoc]

/-- C8 witness: saving the doc-test value writes exactly the pretty
document asserted by the doc-test. -/
theorem save_to_writes_pretty_format_witness :
    (Settings.save_to configCodec
        { path := "/x.ron", inner := { foo := "Hello World", bar := 42 } }
        wFsW "/app/settings.ron").2.2.openFile "/app/settings.ron" =
      .ok "Config(\n    foo: \"Hello World\",\n    bar: 42,\n)" := by
  have h := save_to_writes_pretty_format
    { path := "/x.ron", inner := { foo := "Hello World", bar := 42 } }
    wFsW "/app/settings.ron" rfl
  rw [h.1, h.2.1]

end SettingsRs
